import Mathlib

/-!
Verification of the inference-engine core (`src/Network.cpp`) against its
natural-language specification.  The C++ code is shallowly embedded: pure
functions become Lean functions over `ℕ`/`ℤ`/`ℚ`, stateful code is explicit
state passing, and the external collaborators (rules engine, forward pipe,
cache backing store) are abstracted as parameters, exactly as the spec
declares them external interfaces.
-/

/-! ## Symmetry table (`Network::get_symmetry`, `Network::initialize`) -/

/-- Embedding of `Network::get_symmetry` (Network.cpp:1091-1116).
Applies, in source order: transpose when bit 2 of `s` is set, then
`x := board_size - x - 1` when bit 1 is set, then `y := board_size - y - 1`
when bit 0 is set.  `n` is the board size. -/
def get_symmetry (n : ℕ) (v : ℕ × ℕ) (s : ℕ) : ℕ × ℕ :=
  let p := if s &&& 4 ≠ 0 then (v.2, v.1) else v
  let x := if s &&& 2 ≠ 0 then n - p.1 - 1 else p.1
  let y := if s &&& 1 ≠ 0 then n - p.2 - 1 else p.2
  (x, y)

/-- Embedding of the table fill in `Network::initialize` (Network.cpp:410-416):
`symmetry_nn_idx_table[s][v] = newvtx.second * BOARD_SIZE + newvtx.first`
where `newvtx = get_symmetry({v % BOARD_SIZE, v / BOARD_SIZE}, s)`. -/
def symmetry_nn_idx (n s v : ℕ) : ℕ :=
  let newvtx := get_symmetry n (v % n, v / n) s
  newvtx.2 * n + newvtx.1

/-- Board transpose, `(x, y) ↦ (y, x)`. -/
def transpose_vtx (v : ℕ × ℕ) : ℕ × ℕ := (v.2, v.1)

/-- Horizontal mirror, `x ↦ n - x - 1`. -/
def mirror_x (n : ℕ) (v : ℕ × ℕ) : ℕ × ℕ := (n - v.1 - 1, v.2)

/-- Vertical mirror, `y ↦ n - y - 1`. -/
def mirror_y (n : ℕ) (v : ℕ × ℕ) : ℕ × ℕ := (v.1, n - v.2 - 1)

/-- Conditional application, used to state the fixed composition order of the
symmetry maps. -/
def applyIf (c : Bool) (f : α → α) (x : α) : α := if c then f x else x

lemma get_symmetry_coord_lt (n s : ℕ) {x y : ℕ} (hx : x < n) (hy : y < n) :
    (get_symmetry n (x, y) s).1 < n ∧ (get_symmetry n (x, y) s).2 < n := by
  simp only [get_symmetry]
  split_ifs <;> simp <;> omega

lemma get_symmetry_inj (n s : ℕ) {x1 y1 x2 y2 : ℕ}
    (ha1 : x1 < n) (ha2 : y1 < n) (hb1 : x2 < n) (hb2 : y2 < n)
    (h : get_symmetry n (x1, y1) s = get_symmetry n (x2, y2) s) :
    x1 = x2 ∧ y1 = y2 := by
  simp only [get_symmetry, Prod.mk.injEq] at h
  split_ifs at h <;> omega

lemma symmetry_nn_idx_lt (n s : ℕ) {v : ℕ} (hv : v < n * n) :
    symmetry_nn_idx n s v < n * n := by
  have hn : 0 < n := by
    rcases Nat.eq_zero_or_pos n with h | h
    · subst h; simp at hv
    · exact h
  have hx : v % n < n := Nat.mod_lt _ hn
  have hy : v / n < n := Nat.div_lt_of_lt_mul (by omega)
  obtain ⟨h1, h2⟩ := get_symmetry_coord_lt n s hx hy
  unfold symmetry_nn_idx
  calc (get_symmetry n (v % n, v / n) s).2 * n + (get_symmetry n (v % n, v / n) s).1
      < (get_symmetry n (v % n, v / n) s).2 * n + n := by omega
    _ = ((get_symmetry n (v % n, v / n) s).2 + 1) * n := by ring
    _ ≤ n * n := Nat.mul_le_mul_right n (by omega)

/-- The symmetry table as a self-map of the vertex set `Fin (n*n)`. -/
def symPerm (n s : ℕ) (v : Fin (n * n)) : Fin (n * n) :=
  ⟨symmetry_nn_idx n s v.val, symmetry_nn_idx_lt n s v.isLt⟩

lemma enc_inj {n x1 y1 x2 y2 : ℕ} (hx1 : x1 < n) (hx2 : x2 < n)
    (h : y1 * n + x1 = y2 * n + x2) : x1 = x2 ∧ y1 = y2 := by
  have e1 : (x1 + y1 * n) % n = x1 := by
    rw [Nat.add_mul_mod_self_right]; exact Nat.mod_eq_of_lt hx1
  have e2 : (x2 + y2 * n) % n = x2 := by
    rw [Nat.add_mul_mod_self_right]; exact Nat.mod_eq_of_lt hx2
  have hxy : x1 + y1 * n = x2 + y2 * n := by omega
  have hx : x1 = x2 := by rw [← e1, hxy, e2]
  subst hx
  refine ⟨rfl, ?_⟩
  have hn : 0 < n := by omega
  exact Nat.eq_of_mul_eq_mul_right hn (by omega)

lemma symPerm_injective (n s : ℕ) : Function.Injective (symPerm n s) := by
  intro v1 v2 h
  have hnn : 0 < n * n := lt_of_le_of_lt (Nat.zero_le _) v1.isLt
  have hn : 0 < n := by
    rcases Nat.eq_zero_or_pos n with h0 | h0
    · subst h0; simp at hnn
    · exact h0
  have hx1 : v1.val % n < n := Nat.mod_lt _ hn
  have hy1 : v1.val / n < n := Nat.div_lt_of_lt_mul (by have := v1.isLt; omega)
  have hx2 : v2.val % n < n := Nat.mod_lt _ hn
  have hy2 : v2.val / n < n := Nat.div_lt_of_lt_mul (by have := v2.isLt; omega)
  have hval : symmetry_nn_idx n s v1.val = symmetry_nn_idx n s v2.val :=
    congrArg Fin.val h
  unfold symmetry_nn_idx at hval
  obtain ⟨hc1, hc2⟩ := get_symmetry_coord_lt n s hx1 hy1
  obtain ⟨hd1, hd2⟩ := get_symmetry_coord_lt n s hx2 hy2
  obtain ⟨he1, he2⟩ := enc_inj hc1 hd1 hval
  have hpair : get_symmetry n (v1.val % n, v1.val / n) s
      = get_symmetry n (v2.val % n, v2.val / n) s :=
    Prod.ext_iff.mpr ⟨he1, he2⟩
  obtain ⟨hmod, hdiv⟩ := get_symmetry_inj n s hx1 hy1 hx2 hy2 hpair
  apply Fin.ext
  have e1 := Nat.div_add_mod v1.val n
  have e2 := Nat.div_add_mod v2.val n
  rw [hdiv, hmod] at e1
  exact e1.symm.trans e2

/-- Claim C9: for the symmetry table built at initialization, symmetry 0 maps
every vertex to itself, each of the 8 symmetry maps is a bijection on the
board vertices, and each map is the composition, in this fixed order, of
transpose when bit 2 is set, horizontal mirror when bit 1 is set, and vertical
mirror when bit 0 is set. -/
theorem symmetry_table_props (n s : ℕ) (hs : s < 8) :
    (∀ v : Fin (n * n), symPerm n 0 v = v) ∧
    Function.Bijective (symPerm n s) ∧
    (∀ v : ℕ × ℕ, get_symmetry n v s =
      applyIf (decide (s &&& 1 ≠ 0)) (mirror_y n)
        (applyIf (decide (s &&& 2 ≠ 0)) (mirror_x n)
          (applyIf (decide (s &&& 4 ≠ 0)) transpose_vtx v))) := by
  refine ⟨?_, ?_, ?_⟩
  · intro v
    apply Fin.ext
    show (v.val / n) * n + v.val % n = v.val
    have h := Nat.div_add_mod v.val n
    calc (v.val / n) * n + v.val % n = n * (v.val / n) + v.val % n := by ring
      _ = v.val := h
  · exact Finite.injective_iff_bijective.mp (symPerm_injective n s)
  · intro v
    interval_cases s <;> rfl

/-- Witness for C9 at board size 2 and symmetry 3. -/
theorem symmetry_table_props_witness :
    (∀ v : Fin (2 * 2), symPerm 2 0 v = v) ∧
    Function.Bijective (symPerm 2 3) ∧
    (∀ v : ℕ × ℕ, get_symmetry 2 v 3 =
      applyIf (decide (3 &&& 1 ≠ 0)) (mirror_y 2)
        (applyIf (decide (3 &&& 2 ≠ 0)) (mirror_x 2)
          (applyIf (decide (3 &&& 4 ≠ 0)) transpose_vtx v))) :=
  symmetry_table_props 2 3 (by decide)

/-! ## Weight-file loading (`Network::load_network_file`) -/

/-- Network member state touched by the loader.  The full tensor inventory of
`Network.h` is abstracted to two representative tensor lists; what matters for
the claims is whether `load_v1_network` ran at all and whether the
orientation flag was written. -/
structure NetState where
  value_head_not_stm : Bool
  conv_weights : List (List ℚ)
  batchnorm_means : List (List ℚ)
deriving Repr, DecidableEq

/-- Result of `iss >> format_version` on the first line: the stream fail flag
and the parsed integer. -/
structure VersionParse where
  ok : Bool
  value : Int
deriving Repr, DecidableEq

/-- Embedding of the version dispatch of `Network::load_network_file`
(Network.cpp:379-404).  `vp = none` models `std::getline` failing on an empty
buffer.  `loadV1` abstracts `load_v1_network`, which is invoked only after the
version check passes and the orientation flag is assigned
(`m_value_head_not_stm := (format_version == 2)`).  Every failing path returns
the sentinel `(0, 0)` with the member state untouched. -/
def load_network_file (loadV1 : NetState → (ℕ × ℕ) × NetState)
    (vp : Option VersionParse) (s : NetState) : (ℕ × ℕ) × NetState :=
  match vp with
  | none => ((0, 0), s)
  | some v =>
    if v.ok = false ∨ v.value ≠ 502 then ((0, 0), s)
    else loadV1 { s with value_head_not_stm := decide (v.value = 2) }

/-- Claim C1 (amended): exactly one format version, 502, is accepted; it
proceeds to `load_v1_network` with the value-head-orientation flag cleared.
Every other first-line outcome — a parse failure, or any version value other
than 502, including the legacy values 1 and 2 — fails hard with the sentinel
`(0, 0)` and the member state (tensors, flag) untouched. -/
theorem load_network_file_version_gate (loadV1 : NetState → (ℕ × ℕ) × NetState)
    (s : NetState) :
    (load_network_file loadV1 none s = ((0, 0), s)) ∧
    (∀ p : VersionParse, p.ok = false →
      load_network_file loadV1 (some p) s = ((0, 0), s)) ∧
    (∀ p : VersionParse, p.value ≠ 502 →
      load_network_file loadV1 (some p) s = ((0, 0), s)) ∧
    (∀ p : VersionParse, p.ok = true → p.value = 502 →
      load_network_file loadV1 (some p) s
        = loadV1 { s with value_head_not_stm := false }) := by
  refine ⟨rfl, ?_, ?_, ?_⟩
  · intro p hp
    simp [load_network_file, hp]
  · intro p hp
    simp [load_network_file, hp]
  · intro p hok hv
    have : (p.ok = false ∨ p.value ≠ 502) = False := by
      simp [hok, hv]
    simp [load_network_file, hok, hv]

/-- Fixture: a `load_v1_network` stand-in that visibly populates a tensor. -/
def loadV1fix : NetState → (ℕ × ℕ) × NetState :=
  fun s => ((64, 5), { s with conv_weights := [[1]] })

/-- Fixture: the freshly-constructed network state before loading. -/
def netState0 : NetState :=
  { value_head_not_stm := false, conv_weights := [], batchnorm_means := [] }

/-- Counterexample to C1 as stated: the claimed second legacy version (the
value-from-Black format, version 2) does NOT load; it hits the failure
sentinel `(0, 0)` with no tensors populated and the orientation flag never
set. -/
theorem load_network_file_version2_rejected :
    load_network_file loadV1fix (some ⟨true, 2⟩) netState0 = ((0, 0), netState0) := by
  decide

/-- Witness for C1: the accepted version 502 reaches `load_v1_network` with
the flag cleared, and version 1 is rejected. -/
theorem load_network_file_version_gate_witness :
    load_network_file loadV1fix (some ⟨true, 502⟩) netState0
      = loadV1fix { netState0 with value_head_not_stm := false } ∧
    load_network_file loadV1fix (some ⟨true, 1⟩) netState0 = ((0, 0), netState0) :=
  ⟨((load_network_file_version_gate loadV1fix netState0).2.2.2 ⟨true, 502⟩ rfl rfl),
   ((load_network_file_version_gate loadV1fix netState0).2.2.1 ⟨true, 1⟩ (by decide))⟩

/-! ## Self-check comparison metric (`relative_difference`,
`Network::compare_net_outputs`) -/

/-- A C++ `float` for the purposes of the comparison metric: either NaN or an
exact value, embedded in `ℚ`. -/
inductive FVal where
  | nan : FVal
  | val : ℚ → FVal
deriving Repr, DecidableEq

/-- `std::numeric_limits<float>::max()`, `(2^24 - 1) * 2^104`. -/
def flt_max : ℚ := (2 ^ 24 - 1) * 2 ^ 104

/-- The underflow floor `1/361` of `relative_difference`. -/
def small_number : ℚ := 1 / 361

/-- Embedding of `relative_difference` (Network.cpp:653-676): NaN on either
side yields the maximal value; when both magnitudes exceed the floor, a sign
disagreement yields the maximal value; otherwise both magnitudes are raised
to the floor and the relative difference `|fa - fb| / min(fa, fb)` is
returned. -/
def relative_difference (a b : FVal) : ℚ :=
  match a, b with
  | .nan, _ => flt_max
  | _, .nan => flt_max
  | .val a, .val b =>
    let fa := |a|
    let fb := |b|
    if fa > small_number ∧ fb > small_number then
      if (decide (a < 0)) ≠ (decide (b < 0)) then flt_max
      else |fa - fb| / min fa fb
    else
      |max fa small_number - max fb small_number|
        / min (max fa small_number) (max fb small_number)

/-- The metric as the spec's words describe it (after amending the
sign-disagreement condition): maximal on NaN; maximal on sign disagreement
only when both magnitudes exceed the floor; otherwise the floored relative
difference. -/
def relative_difference_spec (a b : FVal) : ℚ :=
  match a, b with
  | .nan, _ => flt_max
  | _, .nan => flt_max
  | .val a, .val b =>
    if |a| > small_number ∧ |b| > small_number ∧ (decide (a < 0)) ≠ (decide (b < 0))
    then flt_max
    else |max |a| small_number - max |b| small_number|
        / min (max |a| small_number) (max |b| small_number)

/-- The failure threshold `relative_error = 2e-1f`. -/
def relative_error : ℚ := 1 / 5

/-- Embedding of the failure determination in `Network::compare_net_outputs`
(Network.cpp:691-706): the policy vectors are compared index by index (with
early break on the first excess), then the pass probability, then the
win-rate; the check fails when any compared element's metric exceeds the
threshold. -/
def compare_fail (dpol rpol : List FVal) (dpass rpass dwin rwin : FVal) : Bool :=
  ((List.range dpol.length).any fun idx =>
      relative_difference (dpol.getD idx (.val 0)) (rpol.getD idx (.val 0))
        > relative_error)
  || (relative_difference dpass rpass > relative_error)
  || (relative_difference dwin rwin > relative_error)

/-- Counterexample to C6 as stated: two values that disagree in sign but both
lie below the `1/361` floor are floored to equal magnitudes and yield relative
difference 0, not the maximal value. -/
theorem relative_difference_sign_not_maximal :
    relative_difference (.val (1 / 1000)) (.val (-(1 / 1000))) = 0 ∧
    relative_difference (.val (1 / 1000)) (.val (-(1 / 1000))) ≠ flt_max := by
  have h : relative_difference (.val (1 / 1000)) (.val (-(1 / 1000))) = 0 := by
    simp only [relative_difference]
    rw [if_neg]
    · norm_num [small_number]
    · rw [not_and_or]
      left
      rw [not_lt, abs_of_pos (by norm_num : (0:ℚ) < 1/1000)]
      norm_num [small_number]
  refine ⟨h, ?_⟩
  rw [h]
  norm_num [flt_max]

/-- Claim C6 (amended): `relative_difference` returns the maximal value
whenever either argument is NaN, and upon sign disagreement only when both
magnitudes exceed the `1/361` floor; otherwise it returns
`|fa - fb| / min(fa, fb)` with `fa`, `fb` the magnitudes raised to the floor
when below it.  A comparison marks the self-check failed exactly when this
metric exceeds the 20% threshold for some compared element. -/
theorem relative_difference_characterisation (a b : FVal)
    (dpol rpol : List FVal) (dpass rpass dwin rwin : FVal) :
    relative_difference a b = relative_difference_spec a b ∧
    (compare_fail dpol rpol dpass rpass dwin rwin = true ↔
      ((∃ idx < dpol.length,
          relative_difference (dpol.getD idx (.val 0)) (rpol.getD idx (.val 0))
            > relative_error) ∨
        relative_difference dpass rpass > relative_error ∨
        relative_difference dwin rwin > relative_error)) := by
  constructor
  · cases a with
    | nan => cases b <;> rfl
    | val qa =>
      cases b with
      | nan => rfl
      | val qb =>
        simp only [relative_difference, relative_difference_spec]
        by_cases h1 : |qa| > small_number ∧ |qb| > small_number
        · by_cases h2 : (decide (qa < 0)) ≠ (decide (qb < 0))
          · rw [if_pos h1, if_pos h2, if_pos ⟨h1.1, h1.2, h2⟩]
          · rw [if_pos h1, if_neg h2, if_neg (by tauto)]
            rw [max_eq_left (le_of_lt h1.1), max_eq_left (le_of_lt h1.2)]
        · rw [if_neg h1, if_neg (by tauto)]
  · simp only [compare_fail, Bool.or_eq_true, List.any_eq_true, List.mem_range,
      decide_eq_true_eq]
    constructor
    · rintro ((⟨i, hi, hp⟩ | h) | h)
      · exact Or.inl ⟨i, hi, hp⟩
      · exact Or.inr (Or.inl h)
      · exact Or.inr (Or.inr h)
    · rintro (⟨i, hi, hp⟩ | h | h)
      · exact Or.inl (Or.inl ⟨i, hi, hp⟩)
      · exact Or.inl (Or.inr h)
      · exact Or.inr h

/-! ## Self-check sliding failure window (`Network::compare_net_outputs`,
Network.cpp:687-722) -/

/-- Embedding of the window trim `while (m_selfcheck_fails.size() >=
last_failure_window) m_selfcheck_fails.pop_front();` with
`last_failure_window = 10`. -/
def trim10 (w : List Bool) : List Bool :=
  if 10 ≤ w.length then trim10 w.tail else w
termination_by w.length
decreasing_by simp only [List.length_tail]; omega

/-- Embedding of the recording/threshold logic of
`Network::compare_net_outputs` run over a sequence of self-check outcomes
(`true` = divergent comparison).  Each outcome is appended to the window;
when the outcome is a failure and at least `max_failures = 3` of the
window's entries are failures, the fatal error is raised (`true`);
otherwise the window is trimmed and checking continues. -/
def selfcheck_run : List Bool → List Bool → Bool
  | _, [] => false
  | w, o :: rest =>
    if o = true ∧ 3 ≤ (w ++ [o]).count true then true
    else selfcheck_run (trim10 (w ++ [o])) rest

/-- The last at-most-9 entries of a list: the steady-state window shape. -/
def tail9 (pre : List Bool) : List Bool := pre.drop (pre.length - 9)

lemma trim10_eq_aux : ∀ (L : ℕ) (w : List Bool), w.length = L →
    trim10 w = w.drop (w.length - 9) := by
  intro L
  induction L using Nat.strong_induction_on with
  | _ L ih =>
    intro w hL
    rw [trim10]
    split
    · next h =>
      have htl : w.tail.length < L := by
        rw [List.length_tail]; omega
      rw [ih w.tail.length htl w.tail rfl, List.length_tail, ← List.drop_one,
        List.drop_drop]
      congr 1
      omega
    · next h =>
      have h0 : w.length - 9 = 0 := by omega
      rw [h0, List.drop_zero]

lemma trim10_eq (w : List Bool) : trim10 w = w.drop (w.length - 9) :=
  trim10_eq_aux w.length w rfl

lemma tail9_append (pre : List Bool) (o : Bool) :
    tail9 pre ++ [o] = (pre ++ [o]).drop (pre.length - 9) := by
  show pre.drop (pre.length - 9) ++ [o] = _
  rw [List.drop_append_eq_append_drop]
  congr 1
  have h0 : pre.length - 9 - pre.length = 0 := by omega
  rw [h0, List.drop_zero]

lemma trim10_tail9 (pre : List Bool) (o : Bool) :
    trim10 (tail9 pre ++ [o]) = tail9 (pre ++ [o]) := by
  rw [tail9_append, trim10_eq, List.drop_drop]
  show (pre ++ [o]).drop _ = (pre ++ [o]).drop ((pre ++ [o]).length - 9)
  congr 1
  rw [List.length_drop, List.length_append]
  simp only [List.length_cons, List.length_nil]
  omega

lemma selfcheck_run_iff (outs : List Bool) : ∀ (pre : List Bool),
    selfcheck_run (tail9 pre) outs = true ↔
      ∃ i < outs.length, outs.getD i false = true ∧
        3 ≤ ((pre ++ outs.take (i + 1)).drop (pre.length + i + 1 - 10)).count true := by
  induction outs with
  | nil =>
    intro pre
    simp [selfcheck_run]
  | cons o rest ih =>
    intro pre
    rw [selfcheck_run]
    by_cases hc : o = true ∧ 3 ≤ (tail9 pre ++ [o]).count true
    · rw [if_pos hc]
      constructor
      · intro _
        refine ⟨0, by simp, hc.1, ?_⟩
        have h2 := hc.2
        rw [tail9_append] at h2
        have e : pre.length + 0 + 1 - 10 = pre.length - 9 := by omega
        rw [e]
        simpa using h2
      · intro _
        rfl
    · rw [if_neg hc, trim10_tail9, ih (pre ++ [o])]
      constructor
      · rintro ⟨j, hj, hgd, hcount⟩
        refine ⟨j + 1, by simpa using Nat.succ_lt_succ hj, by simpa using hgd, ?_⟩
        have e1 : pre ++ (o :: rest).take (j + 1 + 1) = (pre ++ [o]) ++ rest.take (j + 1) := by
          rw [List.take_succ_cons]
          simp
        have e2 : pre.length + (j + 1) + 1 - 10 = (pre ++ [o]).length + j + 1 - 10 := by
          simp only [List.length_append, List.length_cons, List.length_nil]
          omega
        rw [e1, e2]
        exact hcount
      · rintro ⟨i, hi, hgd, hcount⟩
        cases i with
        | zero =>
          exfalso
          apply hc
          refine ⟨by simpa using hgd, ?_⟩
          rw [tail9_append]
          have e : pre.length + 0 + 1 - 10 = pre.length - 9 := by omega
          rw [e] at hcount
          simpa using hcount
        | succ j =>
          refine ⟨j, by simpa using hi, by simpa using hgd, ?_⟩
          have e1 : pre ++ (o :: rest).take (j + 1 + 1) = (pre ++ [o]) ++ rest.take (j + 1) := by
            rw [List.take_succ_cons]
            simp
          have e2 : pre.length + (j + 1) + 1 - 10 = (pre ++ [o]).length + j + 1 - 10 := by
            simp only [List.length_append, List.length_cons, List.length_nil]
            omega
          rw [e1, e2] at hcount
          exact hcount

lemma selfcheck_run_nil_iff (outs : List Bool) :
    selfcheck_run [] outs = true ↔
      ∃ i < outs.length, outs.getD i false = true ∧
        3 ≤ ((outs.take (i + 1)).drop (i + 1 - 10)).count true := by
  have h := selfcheck_run_iff outs []
  simpa using h

lemma last_true_index (W : List Bool) (h : 0 < W.count true) :
    ∃ k < W.length, W.getD k false = true ∧ W.count true = (W.take (k + 1)).count true := by
  induction W using List.reverseRecOn with
  | nil => simp at h
  | append_singleton W' b ihW =>
    cases b
    · have hcw : (W' ++ [false]).count true = W'.count true := by
        simp [List.count_append]
      rw [hcw] at h
      obtain ⟨k, hk, hgd, hcnt⟩ := ihW h
      refine ⟨k, by simp only [List.length_append, List.length_cons, List.length_nil]; omega,
        ?_, ?_⟩
      · rw [List.getD_append _ _ _ _ hk]
        exact hgd
      · rw [hcw, List.take_append_of_le_length (by omega), hcnt]
    · refine ⟨W'.length, by simp, ?_, ?_⟩
      · rw [List.getD_append_right _ _ _ _ (le_refl _)]
        simp
      · rw [List.take_of_length_le (by simp)]

/-- Claim C5: running the recorded self-check outcomes through the failure
window, if 3 or more of any 10 consecutive outcomes are failures the fatal
error is raised, and if at most 2 of every 10 consecutive outcomes are
failures it is never raised (the window covers exactly the most recent 10
checks). -/
theorem selfcheck_window (outs : List Bool) :
    ((∃ start, 3 ≤ ((outs.drop start).take 10).count true) →
      selfcheck_run [] outs = true) ∧
    ((∀ start, ((outs.drop start).take 10).count true ≤ 2) →
      selfcheck_run [] outs = false) := by
  constructor
  · rintro ⟨start, hstart⟩
    obtain ⟨k, hkW, hgdW, hcntW⟩ :=
      last_true_index ((outs.drop start).take 10) (by omega)
    have hk10 : k < 10 := by
      have := hkW
      rw [List.length_take] at this
      omega
    have hklen : start + k < outs.length := by
      have h1 := hkW
      rw [List.length_take, List.length_drop] at h1
      omega
    rw [selfcheck_run_nil_iff]
    refine ⟨start + k, hklen, ?_, ?_⟩
    · rw [List.getD_eq_getElem?_getD] at hgdW ⊢
      rw [List.getElem?_take, if_pos hk10, List.getElem?_drop] at hgdW
      exact hgdW
    · have hAT : ((outs.take (start + k + 1)).drop (start + k + 1 - 10)).drop
          (start - (start + k + 1 - 10)) = (outs.drop start).take (k + 1) := by
        rw [List.drop_take, List.drop_take, List.drop_drop]
        congr 1
        · omega
        · congr 1
          omega
      calc (3 : ℕ) ≤ ((outs.drop start).take 10).count true := hstart
        _ = (((outs.drop start).take 10).take (k + 1)).count true := hcntW
        _ = (((outs.drop start)).take (k + 1)).count true := by
            rw [List.take_take, min_eq_left (by omega)]
        _ ≤ ((outs.take (start + k + 1)).drop (start + k + 1 - 10)).count true := by
            rw [← hAT]
            exact (List.drop_sublist _ _).count_le true
  · intro hall
    rcases h : selfcheck_run [] outs with _ | _
    · rfl
    · exfalso
      rw [selfcheck_run_nil_iff] at h
      obtain ⟨i, hi, hgd, hcount⟩ := h
      have hle : ((outs.take (i + 1)).drop (i + 1 - 10)).count true
          ≤ ((outs.drop (i + 1 - 10)).take 10).count true := by
        rw [List.drop_take]
        have hk : (i + 1) - (i + 1 - 10) ≤ 10 := by omega
        have e : (outs.drop (i + 1 - 10)).take ((i + 1) - (i + 1 - 10))
            = ((outs.drop (i + 1 - 10)).take 10).take ((i + 1) - (i + 1 - 10)) := by
          rw [List.take_take, min_eq_left hk]
        rw [e]
        exact (List.take_sublist _ _).count_le true
      have := hall (i + 1 - 10)
      omega

/-- Witness for C5: three consecutive divergent comparisons raise the fatal
error, and two failures among ten do not. -/
theorem selfcheck_window_witness :
    selfcheck_run [] [true, true, true] = true ∧
    selfcheck_run [] [true, false, false, false, false, false, false, false, false, true] = false :=
  ⟨(selfcheck_window [true, true, true]).1 ⟨0, by decide⟩,
   (selfcheck_window [true, false, false, false, false, false, false, false, false, true]).2
     (by
       intro start
       by_cases h : start < 10
       · interval_cases start <;> decide
       · rw [List.drop_eq_nil_of_le (by simp; omega)]
         decide)⟩

/-! ## Game-state and board abstraction (external rules-engine collaborators) -/

/-- Stone colors of `FastBoard` (`BLACK`, `WHITE`, `EMPTY`). -/
inductive Sq where
  | black : Sq
  | white : Sq
  | empty : Sq
deriving Repr, DecidableEq

/-- Side to move. -/
inductive Col where
  | black : Col
  | white : Col
deriving Repr, DecidableEq

/-- External board interface consumed by the feature builder: per-coordinate
stone color and liberty count. -/
structure Board where
  square : ℕ → ℕ → Sq
  libs : ℕ → ℕ → ℕ

/-- External game-state interface (the rules-engine collaborator of the
spec): position hash, per-symmetry hash, move number, opening-moves policy,
board size, side to move, komi, current and past boards, move legality, and
the ladder tactical predicates (all by board coordinate). -/
structure GameState where
  board_hash : ℕ
  symmetry_hash : ℕ → ℕ
  movenum : ℕ
  opening_moves : ℕ
  boardsize : ℕ
  to_move : Col
  komi : ℚ
  board : Board
  past : ℕ → Board
  is_move_legal : Col → ℕ → ℕ → Bool
  ladder_capture : ℕ → ℕ → Bool
  ladder_escape : ℕ → ℕ → Bool

/-! ## Result cache and ensemble orchestration (`Network::probe_cache`,
`Network::get_output`, `Network::get_output_internal`) -/

/-- The network output triple: per-vertex policy, pass probability,
win-rate. -/
structure Netresult where
  policy : ℕ → ℚ
  policy_pass : ℚ
  winrate : ℚ

/-- Modelled from the spec: `Netresult` as declared in the missing
`Network.h` header is default-constructed with a zeroed policy vector, zero
pass probability and zero win-rate. -/
def emptyNetresult : Netresult :=
  { policy := fun _ => 0, policy_pass := 0, winrate := 0 }

/-- Configuration consumed by the cache probe: `cfg_noise` and
`cfg_random_cnt`. -/
structure Config where
  noise : Bool
  random_cnt : ℕ
deriving Repr, DecidableEq

/-- The symmetry-hit policy correction of `Network::probe_cache`
(Network.cpp:762-768): `corrected_policy[idx] =
result.policy[symmetry_nn_idx_table[sym][idx]]` for each board vertex. -/
def permute_policy (n sym : ℕ) (r : Netresult) : Netresult :=
  { r with policy := fun idx =>
      if idx < n * n then r.policy (symmetry_nn_idx n sym idx) else 0 }

/-- The symmetry loop of `Network::probe_cache` (Network.cpp:756-771): scan
symmetries in ascending order, skipping the identity, and return the first
hit with its policy re-permuted. -/
def probe_syms (n : ℕ) (cache : ℕ → Option Netresult) (st : GameState) :
    List ℕ → Option Netresult
  | [] => none
  | sym :: rest =>
    if sym = 0 then probe_syms n cache st rest
    else
      match cache (st.symmetry_hash sym) with
      | some r => some (permute_policy n sym r)
      | none => probe_syms n cache st rest

/-- Embedding of `Network::probe_cache` (Network.cpp:746-775).  The backing
store `NNCache` (not under src/) is modelled from the spec as a partial map
from position hash to `Netresult`.  Exact-hash lookup first; on a miss,
when not in a randomized/self-play regime and within the early-opening
window, the 7 non-identity symmetry hashes are probed. -/
def probe_cache (n : ℕ) (cfg : Config) (cache : ℕ → Option Netresult)
    (st : GameState) : Option Netresult :=
  match cache st.board_hash with
  | some r => some r
  | none =>
    if cfg.noise = false ∧ cfg.random_cnt = 0 ∧
        st.movenum < st.opening_moves / 2 then
      probe_syms n cache st (List.range 8)
    else none

/-- The forward pass plus post-processing of one symmetry, abstracted: the
post-softmax outputs vector (index `n*n` is the pass logit slot) and the
post-tanh-rescale win-rate. -/
structure RawNetOut where
  outputs : ℕ → ℚ
  winrate : ℚ

/-- Embedding of the result assembly of `Network::get_output_internal`
(Network.cpp:874-884): the policy is un-permuted back to canonical
orientation via `result.policy[symmetry_nn_idx_table[symmetry][idx]] =
outputs[idx]`, the pass slot is `outputs[NUM_INTERSECTIONS]`, and the
win-rate is the raw win-rate. -/
def get_output_internal (n : ℕ) (raw : ℕ → RawNetOut) (symmetry : ℕ) : Netresult :=
  { policy := (List.range (n * n)).foldl
      (fun acc idx =>
        Function.update acc (symmetry_nn_idx n symmetry idx) ((raw symmetry).outputs idx))
      (fun _ => 0)
  , policy_pass := (raw symmetry).outputs (n * n)
  , winrate := (raw symmetry).winrate }

/-- The three evaluation strategies of `Network::get_output`. -/
inductive Ensemble where
  | DIRECT : Ensemble
  | AVERAGE : Ensemble
  | RANDOM_SYMMETRY : Ensemble
deriving Repr, DecidableEq

/-- The ensemble dispatch of `Network::get_output` (Network.cpp:792-820):
DIRECT evaluates the requested symmetry, AVERAGE accumulates each of the 8
symmetries' results divided by 8 onto a zeroed result (policy entries only
for the board vertices), RANDOM_SYMMETRY evaluates the drawn symmetry. -/
def ensemble_result (n : ℕ) (raw : ℕ → RawNetOut) (ensemble : Ensemble)
    (symmetry rand_sym : ℕ) : Netresult :=
  match ensemble with
  | .DIRECT => get_output_internal n raw symmetry
  | .AVERAGE =>
    (List.range 8).foldl
      (fun acc sym =>
        let tmpresult := get_output_internal n raw sym
        { winrate := acc.winrate + tmpresult.winrate / 8
        , policy_pass := acc.policy_pass + tmpresult.policy_pass / 8
        , policy := fun idx =>
            if idx < n * n then acc.policy idx + tmpresult.policy idx / 8
            else acc.policy idx })
      emptyNetresult
  | .RANDOM_SYMMETRY => get_output_internal n raw rand_sym

/-- The legacy value-head compatibility step of `Network::get_output`
(Network.cpp:822-827): with the v2 flag set and White to move, the win-rate
is complemented. -/
def adjust (value_head_not_stm : Bool) (st : GameState) (r : Netresult) : Netresult :=
  if value_head_not_stm = true ∧ st.to_move = Col.white then
    { r with winrate := 1 - r.winrate }
  else r

/-- Embedding of `Network::get_output` (Network.cpp:777-833).  A mismatched
board size returns the default-constructed result; otherwise the cache is
probed (unless `skip_cache`), a hit returning immediately with the cache
unchanged; otherwise the ensemble result is computed, the legacy value-head
adjustment applied, and the result inserted into the cache under the
position's own hash.  `rand_sym` stands for the randomly drawn symmetry of
RANDOM_SYMMETRY mode. -/
def get_output (n : ℕ) (cfg : Config) (value_head_not_stm : Bool)
    (raw : ℕ → RawNetOut) (cache : ℕ → Option Netresult) (st : GameState)
    (ensemble : Ensemble) (symmetry rand_sym : ℕ) (skip_cache : Bool) :
    Netresult × (ℕ → Option Netresult) :=
  if st.boardsize ≠ n then (emptyNetresult, cache)
  else
    match (if skip_cache then none else probe_cache n cfg cache st) with
    | some r => (r, cache)
    | none =>
      let result :=
        adjust value_head_not_stm st (ensemble_result n raw ensemble symmetry rand_sym)
      (result, fun h => if h = st.board_hash then some result else cache h)

lemma get_output_of_hit {n : ℕ} {cfg : Config} {flag : Bool} {raw : ℕ → RawNetOut}
    {cache : ℕ → Option Netresult} {st : GameState} {ensemble : Ensemble}
    {symmetry rand_sym : ℕ} {skip_cache : Bool} {r : Netresult}
    (hbs : st.boardsize = n)
    (hprobe : (if skip_cache then none else probe_cache n cfg cache st) = some r) :
    get_output n cfg flag raw cache st ensemble symmetry rand_sym skip_cache
      = (r, cache) := by
  unfold get_output
  rw [if_neg (by simp [hbs]), hprobe]

lemma get_output_of_eval {n : ℕ} {cfg : Config} {flag : Bool} {raw : ℕ → RawNetOut}
    {cache : ℕ → Option Netresult} {st : GameState} {ensemble : Ensemble}
    {symmetry rand_sym : ℕ} {skip_cache : Bool}
    (hbs : st.boardsize = n)
    (hprobe : (if skip_cache then none else probe_cache n cfg cache st) = none) :
    get_output n cfg flag raw cache st ensemble symmetry rand_sym skip_cache
      = (adjust flag st (ensemble_result n raw ensemble symmetry rand_sym),
         fun h => if h = st.board_hash
           then some (adjust flag st (ensemble_result n raw ensemble symmetry rand_sym))
           else cache h) := by
  unfold get_output
  rw [if_neg (by simp [hbs]), hprobe]

lemma probe_syms_cons_zero (n : ℕ) (cache : ℕ → Option Netresult) (st : GameState)
    (rest : List ℕ) :
    probe_syms n cache st (0 :: rest) = probe_syms n cache st rest := by
  simp only [probe_syms, if_pos rfl]
  simp

lemma probe_syms_cons_miss (n : ℕ) (cache : ℕ → Option Netresult) (st : GameState)
    (sym : ℕ) (rest : List ℕ) (hs : sym ≠ 0)
    (h : cache (st.symmetry_hash sym) = none) :
    probe_syms n cache st (sym :: rest) = probe_syms n cache st rest := by
  simp only [probe_syms, if_neg hs, h]

lemma probe_syms_cons_hit (n : ℕ) (cache : ℕ → Option Netresult) (st : GameState)
    (sym : ℕ) (rest : List ℕ) (r : Netresult) (hs : sym ≠ 0)
    (h : cache (st.symmetry_hash sym) = some r) :
    probe_syms n cache st (sym :: rest) = some (permute_policy n sym r) := by
  simp only [probe_syms, if_neg hs, h]

/-- Claim C3: with symmetric probing enabled (no noise, no self-play
randomization, move number inside the opening window), an exact-hash miss
followed by a hit on symmetry `s`'s hash (no earlier non-identity symmetry
hitting) returns the stored result with its policy re-permuted through
symmetry `s`'s table entry and the win-rate and pass probability
unchanged. -/
theorem probe_cache_symmetry (n : ℕ) (cfg : Config) (cache : ℕ → Option Netresult)
    (st : GameState) (s : ℕ) (r : Netresult)
    (hs0 : 0 < s) (hs8 : s < 8)
    (hnoise : cfg.noise = false) (hrand : cfg.random_cnt = 0)
    (hopen : st.movenum < st.opening_moves / 2)
    (hmiss : cache st.board_hash = none)
    (hbefore : ∀ t, 0 < t → t < s → cache (st.symmetry_hash t) = none)
    (hhit : cache (st.symmetry_hash s) = some r) :
    ∃ r', probe_cache n cfg cache st = some r' ∧
      r'.winrate = r.winrate ∧ r'.policy_pass = r.policy_pass ∧
      ∀ idx < n * n, r'.policy idx = r.policy (symmetry_nn_idx n s idx) := by
  refine ⟨permute_policy n s r, ?_, rfl, rfl, ?_⟩
  · unfold probe_cache
    rw [hmiss]
    show (if cfg.noise = false ∧ cfg.random_cnt = 0 ∧
        st.movenum < st.opening_moves / 2 then
      probe_syms n cache st (List.range 8) else none) = _
    rw [if_pos ⟨hnoise, hrand, hopen⟩]
    have hrange : List.range 8 = [0, 1, 2, 3, 4, 5, 6, 7] := rfl
    rw [hrange]
    interval_cases s
    · rw [probe_syms_cons_zero,
        probe_syms_cons_hit n cache st 1 _ r (by omega) hhit]
    · rw [probe_syms_cons_zero,
        probe_syms_cons_miss n cache st 1 _ (by omega) (hbefore 1 (by omega) (by omega)),
        probe_syms_cons_hit n cache st 2 _ r (by omega) hhit]
    · rw [probe_syms_cons_zero,
        probe_syms_cons_miss n cache st 1 _ (by omega) (hbefore 1 (by omega) (by omega)),
        probe_syms_cons_miss n cache st 2 _ (by omega) (hbefore 2 (by omega) (by omega)),
        probe_syms_cons_hit n cache st 3 _ r (by omega) hhit]
    · rw [probe_syms_cons_zero,
        probe_syms_cons_miss n cache st 1 _ (by omega) (hbefore 1 (by omega) (by omega)),
        probe_syms_cons_miss n cache st 2 _ (by omega) (hbefore 2 (by omega) (by omega)),
        probe_syms_cons_miss n cache st 3 _ (by omega) (hbefore 3 (by omega) (by omega)),
        probe_syms_cons_hit n cache st 4 _ r (by omega) hhit]
    · rw [probe_syms_cons_zero,
        probe_syms_cons_miss n cache st 1 _ (by omega) (hbefore 1 (by omega) (by omega)),
        probe_syms_cons_miss n cache st 2 _ (by omega) (hbefore 2 (by omega) (by omega)),
        probe_syms_cons_miss n cache st 3 _ (by omega) (hbefore 3 (by omega) (by omega)),
        probe_syms_cons_miss n cache st 4 _ (by omega) (hbefore 4 (by omega) (by omega)),
        probe_syms_cons_hit n cache st 5 _ r (by omega) hhit]
    · rw [probe_syms_cons_zero,
        probe_syms_cons_miss n cache st 1 _ (by omega) (hbefore 1 (by omega) (by omega)),
        probe_syms_cons_miss n cache st 2 _ (by omega) (hbefore 2 (by omega) (by omega)),
        probe_syms_cons_miss n cache st 3 _ (by omega) (hbefore 3 (by omega) (by omega)),
        probe_syms_cons_miss n cache st 4 _ (by omega) (hbefore 4 (by omega) (by omega)),
        probe_syms_cons_miss n cache st 5 _ (by omega) (hbefore 5 (by omega) (by omega)),
        probe_syms_cons_hit n cache st 6 _ r (by omega) hhit]
    · rw [probe_syms_cons_zero,
        probe_syms_cons_miss n cache st 1 _ (by omega) (hbefore 1 (by omega) (by omega)),
        probe_syms_cons_miss n cache st 2 _ (by omega) (hbefore 2 (by omega) (by omega)),
        probe_syms_cons_miss n cache st 3 _ (by omega) (hbefore 3 (by omega) (by omega)),
        probe_syms_cons_miss n cache st 4 _ (by omega) (hbefore 4 (by omega) (by omega)),
        probe_syms_cons_miss n cache st 5 _ (by omega) (hbefore 5 (by omega) (by omega)),
        probe_syms_cons_miss n cache st 6 _ (by omega) (hbefore 6 (by omega) (by omega)),
        probe_syms_cons_hit n cache st 7 _ r (by omega) hhit]
  · intro idx hidx
    simp only [permute_policy, if_pos hidx]

/-- Fixture: an empty board. -/
def emptyBoard : Board := { square := fun _ _ => Sq.empty, libs := fun _ _ => 0 }

/-- Fixture: no-noise, no-self-play configuration (symmetric probing
allowed). -/
def cfgW : Config := { noise := false, random_cnt := 0 }

/-- Fixture: a stored network result. -/
def rW : Netresult := { policy := fun idx => (idx : ℚ), policy_pass := 7 / 10, winrate := 3 / 5 }

/-- Fixture: a 1x1-board game state whose exact hash is 5 and whose
non-identity symmetry hashes include 10 (for symmetry 1). -/
def stW : GameState :=
  { board_hash := 5
  , symmetry_hash := fun t => if t = 1 then 10 else 99
  , movenum := 0
  , opening_moves := 20
  , boardsize := 1
  , to_move := Col.black
  , komi := 0
  , board := emptyBoard
  , past := fun _ => emptyBoard
  , is_move_legal := fun _ _ _ => true
  , ladder_capture := fun _ _ => false
  , ladder_escape := fun _ _ => false }

/-- Fixture: a cache holding `rW` under hash 10 only. -/
def cacheW : ℕ → Option Netresult := fun h => if h = 10 then some rW else none

/-- Fixture: a deterministic raw evaluator distinguishing symmetries. -/
def rawW : ℕ → RawNetOut :=
  fun s => { outputs := fun _ => (s : ℚ), winrate := (s : ℚ) / 10 }

/-- Witness for C3 on the 1x1 board: symmetry 1's hash hits and the stored
policy is returned re-permuted. -/
theorem probe_cache_symmetry_witness :
    ∃ r', probe_cache 1 cfgW cacheW stW = some r' ∧
      r'.winrate = rW.winrate ∧ r'.policy_pass = rW.policy_pass ∧
      ∀ idx < 1 * 1, r'.policy idx = rW.policy (symmetry_nn_idx 1 1 idx) :=
  probe_cache_symmetry 1 cfgW cacheW stW 1 rW (by decide) (by decide) rfl rfl
    (by decide) rfl (fun t h1 h2 => absurd h2 (by omega)) rfl

/-- Counterexample to C2 as stated: after a symmetric-image cache hit,
`get_output` returns without inserting, so the cache still has no entry
under the position's own exact hash. -/
theorem get_output_no_insert_on_symmetry_hit :
    (get_output 1 cfgW false rawW cacheW stW Ensemble.DIRECT 0 0 false).2
      stW.board_hash = none := rfl

/-- Claim C2 (amended): after `get_output` with a matching board size, the
cache maps the position's own hash to the returned result whenever the
result was freshly evaluated (`skip_cache`, or the probe missed) or came
from an exact-hash hit; a symmetric-image hit returns the re-permuted result
without re-insertion, leaving the cache unchanged. -/
theorem get_output_insert_on_eval (n : ℕ) (cfg : Config) (flag : Bool)
    (raw : ℕ → RawNetOut) (cache : ℕ → Option Netresult) (st : GameState)
    (ensemble : Ensemble) (symmetry rand_sym : ℕ) (skip_cache : Bool)
    (hbs : st.boardsize = n)
    (hpath : skip_cache = true ∨ (∃ r0, cache st.board_hash = some r0) ∨
      probe_cache n cfg cache st = none) :
    (get_output n cfg flag raw cache st ensemble symmetry rand_sym skip_cache).2
        st.board_hash
      = some (get_output n cfg flag raw cache st ensemble symmetry rand_sym
          skip_cache).1 := by
  cases hsk : skip_cache with
  | true =>
    rw [get_output_of_eval hbs
      (show (if true then none else probe_cache n cfg cache st) = none from rfl)]
    simp
  | false =>
    rcases hpath with hsc | ⟨r0, hr0⟩ | hnone
    · rw [hsk] at hsc
      simp at hsc
    · have hp : (if false then none else probe_cache n cfg cache st) = some r0 := by
        show probe_cache n cfg cache st = some r0
        unfold probe_cache
        rw [hr0]
      rw [get_output_of_hit hbs hp]
      exact hr0
    · have hp : (if false then none else probe_cache n cfg cache st) = none := by
        show probe_cache n cfg cache st = none
        exact hnone
      rw [get_output_of_eval hbs hp]
      simp

/-- Witness for C2 (amended): a skip-cache evaluation inserts under the
exact hash. -/
theorem get_output_insert_on_eval_witness :
    (get_output 1 cfgW false rawW cacheW stW Ensemble.DIRECT 0 0 true).2
        stW.board_hash
      = some (get_output 1 cfgW false rawW cacheW stW Ensemble.DIRECT 0 0 true).1 :=
  get_output_insert_on_eval 1 cfgW false rawW cacheW stW Ensemble.DIRECT 0 0 true rfl
    (Or.inl rfl)

/-- Claim C7: on the evaluation path, with the legacy value-head flag set the
returned win-rate is the complement of the pre-adjustment ensemble win-rate
exactly when White is to move, and with the flag clear the win-rate is the
pre-adjustment value unchanged. -/
theorem value_head_flag_complement (n : ℕ) (cfg : Config) (raw : ℕ → RawNetOut)
    (cache : ℕ → Option Netresult) (st : GameState) (ensemble : Ensemble)
    (symmetry rand_sym : ℕ) (skip_cache : Bool)
    (hbs : st.boardsize = n)
    (hpath : (if skip_cache then none else probe_cache n cfg cache st) = none) :
    ((get_output n cfg true raw cache st ensemble symmetry rand_sym
        skip_cache).1.winrate
      = if st.to_move = Col.white
        then 1 - (ensemble_result n raw ensemble symmetry rand_sym).winrate
        else (ensemble_result n raw ensemble symmetry rand_sym).winrate) ∧
    (get_output n cfg false raw cache st ensemble symmetry rand_sym
        skip_cache).1.winrate
      = (ensemble_result n raw ensemble symmetry rand_sym).winrate := by
  rw [get_output_of_eval hbs hpath, get_output_of_eval hbs hpath]
  constructor
  · by_cases h : st.to_move = Col.white
    · rw [if_pos h]
      show (adjust true st (ensemble_result n raw ensemble symmetry rand_sym)).winrate = _
      simp [adjust, h]
    · rw [if_neg h]
      show (adjust true st (ensemble_result n raw ensemble symmetry rand_sym)).winrate = _
      simp [adjust, h]
  · show (adjust false st (ensemble_result n raw ensemble symmetry rand_sym)).winrate = _
    simp [adjust]

/-- Witness for C7 at a concrete Black-to-move state with both flag values. -/
theorem value_head_flag_complement_witness :
    ((get_output 1 cfgW true rawW cacheW stW Ensemble.DIRECT 0 0 true).1.winrate
      = if stW.to_move = Col.white
        then 1 - (ensemble_result 1 rawW Ensemble.DIRECT 0 0).winrate
        else (ensemble_result 1 rawW Ensemble.DIRECT 0 0).winrate) ∧
    (get_output 1 cfgW false rawW cacheW stW Ensemble.DIRECT 0 0 true).1.winrate
      = (ensemble_result 1 rawW Ensemble.DIRECT 0 0).winrate :=
  value_head_flag_complement 1 cfgW rawW cacheW stW Ensemble.DIRECT 0 0 true rfl rfl

lemma ensemble_average_components (n : ℕ) (raw : ℕ → RawNetOut)
    (symmetry rand_sym : ℕ) :
    ((ensemble_result n raw Ensemble.AVERAGE symmetry rand_sym).winrate
      = ((get_output_internal n raw 0).winrate + (get_output_internal n raw 1).winrate
        + (get_output_internal n raw 2).winrate + (get_output_internal n raw 3).winrate
        + (get_output_internal n raw 4).winrate + (get_output_internal n raw 5).winrate
        + (get_output_internal n raw 6).winrate + (get_output_internal n raw 7).winrate)
          / 8) ∧
    ((ensemble_result n raw Ensemble.AVERAGE symmetry rand_sym).policy_pass
      = ((get_output_internal n raw 0).policy_pass + (get_output_internal n raw 1).policy_pass
        + (get_output_internal n raw 2).policy_pass + (get_output_internal n raw 3).policy_pass
        + (get_output_internal n raw 4).policy_pass + (get_output_internal n raw 5).policy_pass
        + (get_output_internal n raw 6).policy_pass + (get_output_internal n raw 7).policy_pass)
          / 8) ∧
    (∀ idx < n * n, (ensemble_result n raw Ensemble.AVERAGE symmetry rand_sym).policy idx
      = ((get_output_internal n raw 0).policy idx + (get_output_internal n raw 1).policy idx
        + (get_output_internal n raw 2).policy idx + (get_output_internal n raw 3).policy idx
        + (get_output_internal n raw 4).policy idx + (get_output_internal n raw 5).policy idx
        + (get_output_internal n raw 6).policy idx + (get_output_internal n raw 7).policy idx)
          / 8) := by
  refine ⟨?_, ?_, ?_⟩
  · simp only [ensemble_result]
    rw [show List.range 8 = [0, 1, 2, 3, 4, 5, 6, 7] from rfl]
    simp only [List.foldl_cons, List.foldl_nil, emptyNetresult]
    ring
  · simp only [ensemble_result]
    rw [show List.range 8 = [0, 1, 2, 3, 4, 5, 6, 7] from rfl]
    simp only [List.foldl_cons, List.foldl_nil, emptyNetresult]
    ring
  · intro idx hidx
    simp only [ensemble_result]
    rw [show List.range 8 = [0, 1, 2, 3, 4, 5, 6, 7] from rfl]
    simp only [List.foldl_cons, List.foldl_nil, emptyNetresult]
    simp only [hidx, if_true]
    ring

/-- Claim C8: in Average mode on the evaluation path (flag clear, as the only
successful load leaves it), the returned win-rate, pass probability and every
board-vertex policy entry equal the unweighted arithmetic mean of the 8
per-symmetry results of `get_output_internal`, each of which is already
un-permuted to canonical orientation. -/
theorem average_ensemble_mean (n : ℕ) (cfg : Config) (raw : ℕ → RawNetOut)
    (cache : ℕ → Option Netresult) (st : GameState) (symmetry rand_sym : ℕ)
    (skip_cache : Bool) (hbs : st.boardsize = n)
    (hpath : (if skip_cache then none else probe_cache n cfg cache st) = none) :
    ((get_output n cfg false raw cache st Ensemble.AVERAGE symmetry rand_sym
        skip_cache).1.winrate
      = ((get_output_internal n raw 0).winrate + (get_output_internal n raw 1).winrate
        + (get_output_internal n raw 2).winrate + (get_output_internal n raw 3).winrate
        + (get_output_internal n raw 4).winrate + (get_output_internal n raw 5).winrate
        + (get_output_internal n raw 6).winrate + (get_output_internal n raw 7).winrate)
          / 8) ∧
    ((get_output n cfg false raw cache st Ensemble.AVERAGE symmetry rand_sym
        skip_cache).1.policy_pass
      = ((get_output_internal n raw 0).policy_pass + (get_output_internal n raw 1).policy_pass
        + (get_output_internal n raw 2).policy_pass + (get_output_internal n raw 3).policy_pass
        + (get_output_internal n raw 4).policy_pass + (get_output_internal n raw 5).policy_pass
        + (get_output_internal n raw 6).policy_pass + (get_output_internal n raw 7).policy_pass)
          / 8) ∧
    (∀ idx < n * n, (get_output n cfg false raw cache st Ensemble.AVERAGE symmetry
        rand_sym skip_cache).1.policy idx
      = ((get_output_internal n raw 0).policy idx + (get_output_internal n raw 1).policy idx
        + (get_output_internal n raw 2).policy idx + (get_output_internal n raw 3).policy idx
        + (get_output_internal n raw 4).policy idx + (get_output_internal n raw 5).policy idx
        + (get_output_internal n raw 6).policy idx + (get_output_internal n raw 7).policy idx)
          / 8) := by
  obtain ⟨hw, hp, hpol⟩ := ensemble_average_components n raw symmetry rand_sym
  rw [get_output_of_eval hbs hpath]
  refine ⟨?_, ?_, ?_⟩
  · show (adjust false st (ensemble_result n raw Ensemble.AVERAGE symmetry
        rand_sym)).winrate = _
    rw [show adjust false st (ensemble_result n raw Ensemble.AVERAGE symmetry rand_sym)
        = ensemble_result n raw Ensemble.AVERAGE symmetry rand_sym by simp [adjust]]
    exact hw
  · show (adjust false st (ensemble_result n raw Ensemble.AVERAGE symmetry
        rand_sym)).policy_pass = _
    rw [show adjust false st (ensemble_result n raw Ensemble.AVERAGE symmetry rand_sym)
        = ensemble_result n raw Ensemble.AVERAGE symmetry rand_sym by simp [adjust]]
    exact hp
  · intro idx hidx
    show (adjust false st (ensemble_result n raw Ensemble.AVERAGE symmetry
        rand_sym)).policy idx = _
    rw [show adjust false st (ensemble_result n raw Ensemble.AVERAGE symmetry rand_sym)
        = ensemble_result n raw Ensemble.AVERAGE symmetry rand_sym by simp [adjust]]
    exact hpol idx hidx

/-- Witness for C8 at a concrete skip-cache evaluation on the 1x1 board. -/
theorem average_ensemble_mean_witness :
    ((get_output 1 cfgW false rawW cacheW stW Ensemble.AVERAGE 0 0 true).1.winrate
      = ((get_output_internal 1 rawW 0).winrate + (get_output_internal 1 rawW 1).winrate
        + (get_output_internal 1 rawW 2).winrate + (get_output_internal 1 rawW 3).winrate
        + (get_output_internal 1 rawW 4).winrate + (get_output_internal 1 rawW 5).winrate
        + (get_output_internal 1 rawW 6).winrate + (get_output_internal 1 rawW 7).winrate)
          / 8) ∧
    ((get_output 1 cfgW false rawW cacheW stW Ensemble.AVERAGE 0 0 true).1.policy_pass
      = ((get_output_internal 1 rawW 0).policy_pass + (get_output_internal 1 rawW 1).policy_pass
        + (get_output_internal 1 rawW 2).policy_pass + (get_output_internal 1 rawW 3).policy_pass
        + (get_output_internal 1 rawW 4).policy_pass + (get_output_internal 1 rawW 5).policy_pass
        + (get_output_internal 1 rawW 6).policy_pass + (get_output_internal 1 rawW 7).policy_pass)
          / 8) ∧
    (∀ idx < 1 * 1, (get_output 1 cfgW false rawW cacheW stW Ensemble.AVERAGE 0 0
        true).1.policy idx
      = ((get_output_internal 1 rawW 0).policy idx + (get_output_internal 1 rawW 1).policy idx
        + (get_output_internal 1 rawW 2).policy idx + (get_output_internal 1 rawW 3).policy idx
        + (get_output_internal 1 rawW 4).policy idx + (get_output_internal 1 rawW 5).policy idx
        + (get_output_internal 1 rawW 6).policy idx + (get_output_internal 1 rawW 7).policy idx)
          / 8) :=
  average_ensemble_mean 1 cfgW rawW cacheW stW 0 0 true rfl rfl

/-- Claim C10 (amended): on a board-size mismatch `get_output` returns early
with the default-constructed (zero) result and the cache untouched — a
silent recoverable path, not an assertion failure. -/
theorem get_output_board_size_mismatch (n : ℕ) (cfg : Config) (flag : Bool)
    (raw : ℕ → RawNetOut) (cache : ℕ → Option Netresult) (st : GameState)
    (ensemble : Ensemble) (symmetry rand_sym : ℕ) (skip_cache : Bool)
    (hbs : st.boardsize ≠ n) :
    get_output n cfg flag raw cache st ensemble symmetry rand_sym skip_cache
      = (emptyNetresult, cache) := by
  unfold get_output
  rw [if_pos hbs]

/-- Fixture: a state whose board size disagrees with the compiled size. -/
def stMismatch : GameState := { stW with boardsize := 3 }

/-- Counterexample to C10 as stated: with a mismatched board size,
`get_output` silently returns the zero/default `Netresult` to the caller
(and leaves the cache unchanged) — a recoverable return path does exist. -/
theorem get_output_board_size_default_result :
    (get_output 2 cfgW false rawW cacheW stMismatch Ensemble.DIRECT 0 0 false).1
      = emptyNetresult ∧
    emptyNetresult.winrate = 0 ∧ emptyNetresult.policy_pass = 0 ∧
    emptyNetresult.policy 0 = 0 ∧
    (get_output 2 cfgW false rawW cacheW stMismatch Ensemble.DIRECT 0 0 false).2
      = cacheW :=
  ⟨rfl, rfl, rfl, rfl, rfl⟩

/-- Witness for C10 (amended) at the concrete mismatched state. -/
theorem get_output_board_size_mismatch_witness :
    get_output 2 cfgW false rawW cacheW stMismatch Ensemble.DIRECT 0 0 false
      = (emptyNetresult, cacheW) :=
  get_output_board_size_mismatch 2 cfgW false rawW cacheW stMismatch Ensemble.DIRECT
    0 0 false (by decide)

/-! ## Feature-plane construction (`Network::gather_features`,
Network.cpp:1025-1089, with helpers Network.cpp:942-1023) -/

/-- `std::fill` over `count` slots starting at element offset `off` of the
flat input buffer. -/
def fillConst (buf : ℕ → ℚ) (off count : ℕ) (v : ℚ) : ℕ → ℚ :=
  (List.range count).foldl (fun acc i => Function.update acc (off + i) v) buf

/-- Embedding of `Network::fill_input_plane_pair` (Network.cpp:942-957):
stone-occupancy writes through the symmetry table. -/
def fill_input_plane_pair (n sym : ℕ) (b : Board) (blackOff whiteOff : ℕ)
    (buf : ℕ → ℚ) : ℕ → ℚ :=
  (List.range (n * n)).foldl
    (fun acc idx =>
      let sym_idx := symmetry_nn_idx n sym idx
      match b.square (sym_idx % n) (sym_idx / n) with
      | Sq.black => Function.update acc (blackOff + idx) 1
      | Sq.white => Function.update acc (whiteOff + idx) 1
      | Sq.empty => acc)
    buf

/-- Embedding of `Network::legal_plane` (Network.cpp:959-975): writes 1 at
empty vertices where the current player's move is not legal. -/
def legal_plane (n sym : ℕ) (st : GameState) (legalOff : ℕ) (buf : ℕ → ℚ) :
    ℕ → ℚ :=
  (List.range (n * n)).foldl
    (fun acc idx =>
      let sym_idx := symmetry_nn_idx n sym idx
      let x := sym_idx % n
      let y := sym_idx / n
      if st.board.square x y = Sq.empty ∧
          st.is_move_legal st.to_move x y = false
      then Function.update acc (legalOff + idx) 1
      else acc)
    buf

/-- Embedding of `Network::fill_liberty_planes` (Network.cpp:977-1000):
per-color liberties-equal-to-N plane writes, capped at `plane_count`. -/
def fill_liberty_planes (n sym : ℕ) (b : Board)
    (planesBlackOff planesWhiteOff plane_count : ℕ) (buf : ℕ → ℚ) : ℕ → ℚ :=
  (List.range (n * n)).foldl
    (fun acc idx =>
      let sym_idx := symmetry_nn_idx n sym idx
      let x := sym_idx % n
      let y := sym_idx / n
      match b.square x y with
      | Sq.empty => acc
      | Sq.black =>
        Function.update acc
          (planesBlackOff + (min (b.libs x y) plane_count - 1) * (n * n) + idx) 1
      | Sq.white =>
        Function.update acc
          (planesWhiteOff + (min (b.libs x y) plane_count - 1) * (n * n) + idx) 1)
    buf

/-- Embedding of `Network::fill_ladder_planes` (Network.cpp:1002-1018). -/
def fill_ladder_planes (n sym : ℕ) (st : GameState) (capturesOff escapesOff : ℕ)
    (buf : ℕ → ℚ) : ℕ → ℚ :=
  (List.range (n * n)).foldl
    (fun acc idx =>
      let sym_idx := symmetry_nn_idx n sym idx
      let x := sym_idx % n
      let y := sym_idx / n
      let acc1 := if st.ladder_capture x y = true
        then Function.update acc (capturesOff + idx) 1 else acc
      if st.ladder_escape x y = true
      then Function.update acc1 (escapesOff + idx) 1 else acc1)
    buf

/-- Embedding of `Network::get_normalised_komi` (Network.cpp:1020-1023):
`0.5 + komi / (2 * TRAINED_UNIT_KOMI)`. -/
def get_normalised_komi (trained_unit_komi : ℚ) (st : GameState) : ℚ :=
  1 / 2 + st.komi / (2 * trained_unit_komi)

/-- Embedding of `Network::gather_features` (Network.cpp:1025-1089), with the
write order of the source: history planes, then the komi fills at the
offsets the source actually uses (`black_to_move_it = begin + 2 *
INPUT_MOVES * NUM_INTERSECTIONS`, Network.cpp:1069-1070 — note the source
also computes a distinct `to_move_it` past the ladder planes,
Network.cpp:1055-1057, but never uses it), then the legality plane, the
liberty planes, and the ladder planes.  `input_moves` is `INPUT_MOVES`,
`liberty_planes` is `LIBERTY_PLANES`, `n` is `BOARD_SIZE`. -/
def gather_features (n input_moves liberty_planes : ℕ) (trained_unit_komi : ℚ)
    (st : GameState) (symmetry : ℕ) : ℕ → ℚ :=
  let ni := n * n
  let blacks_move := st.to_move = Col.black
  let black_off := if blacks_move then 0 else input_moves * ni
  let white_off := if blacks_move then input_moves * ni else 0
  let legal_off := 2 * input_moves * ni
  let liberties_our := (2 * input_moves + 1) * ni
  let liberties_other := (2 * input_moves + 1 + liberty_planes) * ni
  let liberties_black := if blacks_move then liberties_our else liberties_other
  let liberties_white := if blacks_move then liberties_other else liberties_our
  let captures_off := (2 * input_moves + 1 + 2 * liberty_planes) * ni
  let escapes_off := (2 * input_moves + 1 + 2 * liberty_planes + 1) * ni
  let moves := min (st.movenum + 1) input_moves
  let buf : ℕ → ℚ := fun _ => 0
  let buf := (List.range moves).foldl
    (fun acc h => fill_input_plane_pair n symmetry (st.past h)
      (black_off + h * ni) (white_off + h * ni) acc) buf
  let black_to_move_off := 2 * input_moves * ni
  let white_to_move_off := black_to_move_off + ni
  let pos_komi := get_normalised_komi trained_unit_komi st
  let neg_komi := 1 - pos_komi
  let black_komi := if blacks_move then pos_komi else neg_komi
  let white_komi := if blacks_move then neg_komi else pos_komi
  let buf := fillConst buf black_to_move_off ni black_komi
  let buf := fillConst buf white_to_move_off ni white_komi
  let buf := legal_plane n symmetry st legal_off buf
  let buf := fill_liberty_planes n symmetry st.board liberties_black
    liberties_white liberty_planes buf
  fill_ladder_planes n symmetry st captures_off escapes_off buf

/-- Fixture for C4: a 2x2 empty board, Black to move, komi equal to the
training reference komi (normalized komi 1), every move legal, no ladders. -/
def stF : GameState := { stW with boardsize := 2, komi := 15 / 2 }

/-- Claim C4 evidence (code bug): with `n = 2`, `INPUT_MOVES = 1`,
`LIBERTY_PLANES = 1`, the flat tensor holds the black side-to-move komi
scalar (here 1) at element 8 — the first entry of the legality-plane slot
`2 * INPUT_MOVES * NUM_INTERSECTIONS` — where the claimed illegal-move
indicator is 0 on this all-legal empty board; and the two planes following
the ladder planes (elements 28 and 32 onward), where the source's unused
`to_move_it` points and where the claimed komi plane pair would live, stay
zero. -/
theorem gather_features_plane_overlap :
    gather_features 2 1 1 (15 / 2) stF 0 8 = get_normalised_komi (15 / 2) stF ∧
    get_normalised_komi (15 / 2) stF = 1 ∧
    gather_features 2 1 1 (15 / 2) stF 0 28 = 0 ∧
    gather_features 2 1 1 (15 / 2) stF 0 32 = 0 := by
  refine ⟨rfl, ?_, rfl, rfl⟩
  show (1 : ℚ) / 2 + (15 / 2) / (2 * (15 / 2)) = 1
  norm_num
